import Mathlib

/-!
Verification development for the columnar execution core and catalog of the
databend repository.  The Rust sources are shallowly embedded: pure functions
become Lean functions, `Result<T>` becomes `Except ErrorCode T`, a Rust panic
(`panic!` or `.unwrap()` on an `Err`) is modelled by a dedicated `panicked`
outcome distinct from every returned error.
-/

namespace Databend

/-- Arrow time units, from `arrow::datatypes::TimeUnit`. -/
inductive TimeUnit where
  | second
  | millisecond
  | microsecond
  | nanosecond
deriving DecidableEq, Repr

/-- Arrow interval units, from `arrow::datatypes::IntervalUnit`. -/
inductive IntervalUnit where
  | yearMonth
  | dayTime
deriving DecidableEq, Repr

/-- The closed set of logical column types used by the repository
(`DataType` in common/datavalues): integers, floats, Boolean, Utf8/Binary,
and the temporal/interval family. -/
inductive DataType where
  | int8
  | int16
  | int32
  | int64
  | uint8
  | uint16
  | uint32
  | uint64
  | float32
  | float64
  | boolean
  | utf8
  | binary
  | date32
  | date64
  | timestamp (unit : TimeUnit) (tz : Option String)
  | interval (unit : IntervalUnit)
deriving DecidableEq, Repr

/-- Typed errors of `common_exception::ErrorCode` (payload messages omitted). -/
inductive ErrorCode where
  | unsupportedCast
  | typeMismatch
  | indexOutOfRange
  | unknownDatabase
  | unknownTableFunction
deriving DecidableEq, Repr

/-- Outcome of a Rust call as seen by the caller: a returned value, a returned
typed error, or a process panic (`.unwrap()` on `Err`, or `panic!`).  A panic
is not a returned error: the caller never observes it as a value. -/
inductive DResult (α : Type) where
  | ok (a : α)
  | err (e : ErrorCode)
  | panicked
deriving DecidableEq, Repr

/-- Lift a Rust `Result` (embedded as `Except`) into a caller-visible outcome:
`Ok`/`Err` are returned to the caller as they are. -/
def liftExcept {α : Type} : Except ErrorCode α → DResult α
  | .ok a => .ok a
  | .error e => .err e

/-- A type-erased column handle (`Series`): one logical `DataType` plus the
row values.  `none` rows are null (validity bitmap cleared). -/
structure Series where
  dataType : DataType
  values : List (Option Int)
deriving DecidableEq, Repr

namespace Series

/-- Number of rows, `SeriesTrait::len`. -/
def len (s : Series) : Nat := s.values.length

end Series

/-- `DataArray::physical_type` from date_wrap.rs lines 19-30: the physical
memory type of a date-like type.  The source `panic!`s on any other input
("already a physical type"); the panic is modelled by `none`. -/
def physicalType : DataType → Option DataType
  | .date64 | .timestamp _ _ | .interval .dayTime => some .int64
  | .date32 | .interval .yearMonth => some .int32
  | _ => none

/-- The signature of `cast_with_type` as the dispatch macros use it: the cast
itself lives outside date_wrap.rs (it is a method of the wrapped array), so
the embedding takes it as a parameter. -/
abbrev CastFn : Type := Series → DataType → Except ErrorCode Series

/-- The `try_physical_dispatch!` macro from date_wrap.rs lines 51-67:
read the logical type, compute the physical type (panicking if the type is
already physical), cast the operand to the physical type (`.unwrap()`:
a cast failure here panics), run the fallible method (`?`: its error is
returned), and if the result still has the physical type, cast it back to
the logical type, returning that cast's `Result` as is. -/
def tryPhysicalDispatch (cast : CastFn) (method : Series → Except ErrorCode Series)
    (s : Series) : DResult Series :=
  match physicalType s.dataType with
  | none => .panicked
  | some physType =>
    match cast s physType with
    | .error _ => .panicked
    | .ok s1 =>
      match method s1 with
      | .error e => .err e
      | .ok r =>
        if r.dataType = physType then
          liftExcept (cast r s.dataType)
        else
          .ok r

/-- The `physical_dispatch!` macro from date_wrap.rs lines 33-49: same shape
for an infallible method, but the restoring cast is also `.unwrap()`ed, so a
failure of either cast panics. -/
def physicalDispatch (cast : CastFn) (method : Series → Series)
    (s : Series) : DResult Series :=
  match physicalType s.dataType with
  | none => .panicked
  | some physType =>
    match cast s physType with
    | .error _ => .panicked
    | .ok s1 =>
      let r := method s1
      if r.dataType = physType then
        match cast r s.dataType with
        | .error _ => .panicked
        | .ok r2 => .ok r2
      else
        .ok r

/-- The `cast_and_apply!` macro from date_wrap.rs lines 88-94: cast to the
physical type (`.unwrap()`: a cast failure panics) and apply the method with
no restoring cast. -/
def castAndApply {α : Type} (cast : CastFn) (method : Series → α)
    (s : Series) : DResult α :=
  match physicalType s.dataType with
  | none => .panicked
  | some physType =>
    match cast s physType with
    | .error _ => .panicked
    | .ok s1 => .ok (method s1)

/-- `SeriesTrait::subtract` for the date wrappers (date_wrap.rs lines
168-170): `try_physical_dispatch!(self, subtract, rhs)`.  `arrOp` is the
underlying array-level operation, which lives outside this file. -/
def Series.subtract (cast : CastFn) (arrOp : Series → Series → Except ErrorCode Series)
    (s rhs : Series) : DResult Series :=
  tryPhysicalDispatch cast (fun x => arrOp x rhs) s

/-- `SeriesTrait::add_to` for the date wrappers (date_wrap.rs lines 171-173). -/
def Series.addTo (cast : CastFn) (arrOp : Series → Series → Except ErrorCode Series)
    (s rhs : Series) : DResult Series :=
  tryPhysicalDispatch cast (fun x => arrOp x rhs) s

/-- `SeriesTrait::multiply` for the date wrappers (date_wrap.rs lines 174-176). -/
def Series.multiply (cast : CastFn) (arrOp : Series → Series → Except ErrorCode Series)
    (s rhs : Series) : DResult Series :=
  tryPhysicalDispatch cast (fun x => arrOp x rhs) s

/-- `SeriesTrait::divide` for the date wrappers (date_wrap.rs lines 177-179). -/
def Series.divide (cast : CastFn) (arrOp : Series → Series → Except ErrorCode Series)
    (s rhs : Series) : DResult Series :=
  tryPhysicalDispatch cast (fun x => arrOp x rhs) s

/-- `SeriesTrait::remainder` for the date wrappers (date_wrap.rs lines 180-182). -/
def Series.remainder (cast : CastFn) (arrOp : Series → Series → Except ErrorCode Series)
    (s rhs : Series) : DResult Series :=
  tryPhysicalDispatch cast (fun x => arrOp x rhs) s

/-! ## Equality comparison kernels (comparison_eq.rs) -/

/-- A primitive scalar value as the comparison kernels see it: a finite
numeric value (finite values restricted to integers; IEEE equality on finite
values is exact value equality, so this loses no equality behaviour), or the
NaN of a float type.  Integer-typed columns contain only `num` values; a
float-typed column may also contain `nan`. -/
inductive PrimValue where
  | num (v : Int)
  | nan
deriving DecidableEq, Repr

/-- Modelled from the Rust standard library: `PartialEq::eq` at a primitive
numeric type.  On integer values it is exact equality; at a float type it is
IEEE equality, under which NaN compares unequal to everything, including
itself. -/
def ieeeEq : PrimValue → PrimValue → Bool
  | .num a, .num b => decide (a = b)
  | _, _ => false

/-- `ComparisonEqImpl::eval_primitive` (comparison_eq.rs lines 41-48):
convert both operands into the promotion type `M` (via `AsPrimitive`, an
arbitrary deterministic conversion) and compare there with `M`'s
`PartialEq::eq` (`meq`), which is `ieeeEq` when `M` is a float type. -/
def evalPrimitive {α β : Type} (meq : β → β → Bool) (conv : α → β) (l r : α) : Bool :=
  meq (conv l) (conv r)

/-- `ComparisonEqImpl::eval_binary` (comparison_eq.rs lines 50-52): exact
byte-slice equality (`l == r` on `&[u8]`), bytes embedded as naturals. -/
def evalBinary (l r : List Nat) : Bool :=
  decide (l = r)

/-- Modelled from the spec: the SIMD lane equality kernel
(`Simd8PartialEq::eq`, invoked by `ComparisonEqImpl::eval_simd` at
comparison_eq.rs lines 33-39) is the platform equality predicate applied per
lane; on integer lanes that is exact equality and on float lanes IEEE
equality, i.e. `ieeeEq` on lane values.  The kernel itself is library code
outside this repository's sources. -/
def evalSimdEq (l r : PrimValue) : Bool :=
  ieeeEq l r

/-- Modelled from the spec: the vector/vector comparison framework applies the
per-element kernel rowwise and derives the result null mask as the OR of both
operand null masks (a row is null iff either input row is null).  The driver
lives in comparison.rs/utils.rs, outside the provided sources. -/
def eqVectorVector {α : Type} (kernel : α → α → Bool)
    (a b : List (Option α)) : List (Option Bool) :=
  List.zipWith
    (fun x y =>
      match x, y with
      | some u, some v => some (kernel u v)
      | _, _ => none)
    a b

/-! ## Boolean equality special case (comparison_eq.rs lines 55-74) -/

/-- A Boolean column: one semantic bit per row (nulls are out of scope for
the `BooleanSimdImpl` entry points, which work on the value bits). -/
abbrev BooleanColumn : Type := List Bool

/-- Modelled from the spec: `CommonBooleanOp::compare_op` applies the binary
closure rowwise to two Boolean columns; it lives in utils.rs outside the
provided sources. -/
def compareOp (f : Bool → Bool → Bool) (lhs rhs : BooleanColumn) : BooleanColumn :=
  List.zipWith f lhs rhs

/-- Modelled from the spec: `CommonBooleanOp::compare_op_scalar` applies the
binary closure to each row and the broadcast scalar. -/
def compareOpScalar (f : Bool → Bool → Bool) (lhs : BooleanColumn) (rhs : Bool) :
    BooleanColumn :=
  lhs.map (fun a => f a rhs)

namespace BooleanSimdEq

/-- `BooleanSimdEq::vector_vector` (comparison_eq.rs lines 59-61):
`compare_op(lhs, rhs, |a, b| !(a ^ b))`. -/
def vectorVector (lhs rhs : BooleanColumn) : BooleanColumn :=
  compareOp (fun a b => !(a ^^ b)) lhs rhs

/-- `BooleanSimdEq::vector_const` (comparison_eq.rs lines 63-69): with `true`
return the column clone itself, with `false` apply rowwise negation. -/
def vectorConst (lhs : BooleanColumn) (rhs : Bool) : BooleanColumn :=
  if rhs then lhs else compareOpScalar (fun a _ => !a) lhs rhs

/-- `BooleanSimdEq::const_vector` (comparison_eq.rs lines 71-73):
`Self::vector_const(rhs, lhs)`. -/
def constVector (lhs : Bool) (rhs : BooleanColumn) : BooleanColumn :=
  vectorConst rhs lhs

end BooleanSimdEq

/-! ## Slice and try_get (date_wrap.rs lines 143-145 and 160-162) -/

/-- Modelled from the spec: the underlying array `slice(offset, length)` is a
zero-copy view of `length` rows starting at `offset`, preserving the logical
type, element values and their order.  The wrapper in date_wrap.rs delegates
to the array implementation, which is outside the provided sources. -/
def Series.slice (s : Series) (offset length : Nat) : Series :=
  { dataType := s.dataType, values := (s.values.drop offset).take length }

/-- Modelled from the spec: `try_get(index)` returns the row value as a tagged
scalar, or `IndexOutOfRange` when `index` is out of bounds.  The wrapper in
date_wrap.rs delegates to the array implementation. -/
def Series.tryGet (s : Series) (index : Nat) : Except ErrorCode (Option Int) :=
  match s.values[index]? with
  | some v => .ok v
  | none => .error .indexOutOfRange

/-! ## Catalog (query/src/catalogs/impls/database_catalog.rs) -/

/-- `common_planners::DatabaseEngineType`. -/
inductive DatabaseEngineType where
  | localEngine
  | remoteEngine
deriving DecidableEq, Repr

/-- `common_planners::CreateDatabasePlan`, the fields the catalog reads. -/
structure CreateDatabasePlan where
  db : String
  engine : DatabaseEngineType
  ifNotExists : Bool
deriving DecidableEq, Repr

/-- Rust `str::to_lowercase` as used by `register_database`, restricted to its
ASCII case mapping (the names involved here are ASCII identifiers). -/
def toLowercase (s : String) : String :=
  ⟨s.data.map Char.toLower⟩

/-- Does the name contain an ASCII uppercase letter? -/
def hasUpper (s : String) : Bool :=
  s.data.any Char.isUpper

/-- The catalog's local database map, reduced to its key set: the claims only
read key membership, never the stored `Database` values. -/
abbrev CatalogKeys : Type := List String

/-- `DatabaseCatalog::register_database` (database_catalog.rs lines 68-79):
each database is inserted into the local map under
`database.name().to_lowercase()`. -/
def registerDatabase (st : CatalogKeys) (names : List String) : CatalogKeys :=
  names.foldl (fun acc n => toLowercase n :: acc) st

/-- `DatabaseCatalog::get_database` (database_catalog.rs lines 81-95): look
the name up in the local map as given; on a miss, delegate to the backend
when a store address is configured, otherwise fail with `UnknownDatabase`. -/
def getDatabase (storeAddress : String) (backend : String → Except ErrorCode Unit)
    (st : CatalogKeys) (name : String) : Except ErrorCode Unit :=
  if name ∈ st then .ok ()
  else if storeAddress ≠ "" then backend name
  else .error .unknownDatabase

/-- `DatabaseCatalog::get_databases` (database_catalog.rs lines 97-113):
collect the local keys, extend with the remote names when a store address is
configured, then `sort()` (Rust's stable sort by `Ord`, embedded as
`mergeSort` on the lexicographic string order). -/
def getDatabases (storeAddress : String) (backendDbs : List String)
    (st : CatalogKeys) : List String :=
  let dbs := st ++ (if storeAddress ≠ "" then backendDbs else [])
  dbs.mergeSort (fun a b => a ≤ b)

/-- `DatabaseCatalog::create_database` (database_catalog.rs lines 166-189):
if the name is already a key of the local map, succeed when `if_not_exists`
is set and otherwise return an error (the source uses the `UnknownDatabase`
code with an "already exists" message); otherwise insert locally for the
Local engine or delegate to the backend for the Remote engine. -/
def createDatabase (backend : CreateDatabasePlan → Except ErrorCode Unit)
    (st : CatalogKeys) (plan : CreateDatabasePlan) :
    Except ErrorCode Unit × CatalogKeys :=
  if plan.db ∈ st then
    if plan.ifNotExists then (.ok (), st)
    else (.error .unknownDatabase, st)
  else
    match plan.engine with
    | .localEngine => (.ok (), plan.db :: st)
    | .remoteEngine => (backend plan, st)

/-! ## GraphvizVisitor (src/planners/plan_visitor.rs lines 136-249) -/

/-- `std::fmt::Error`, the error type of the visitor's formatter writes. -/
inductive FmtError where
  | fmtError
deriving DecidableEq, Repr

/-- The mutable state of `GraphvizVisitor`: the `GraphvizBuilder` id counter,
the stack of parent node ids, and the number of `writeln!` calls issued to
the formatter so far (the formatter's written text does not affect control
flow, only whether each write succeeds does). -/
structure GvState where
  idGen : Nat
  parentIds : List Nat
  writes : Nat
deriving DecidableEq, Repr

/-- `GraphvizBuilder::next_id` (plan_visitor.rs lines 142-146): increment the
counter and return the new value. -/
def GvState.nextId (s : GvState) : Nat × GvState :=
  (s.idGen + 1, { s with idGen := s.idGen + 1 })

/-- A formatter behaviour: whether the n-th `writeln!` issued to it succeeds.
`fmt::Formatter` is external; success of each write is the only part of it
the visitor's control flow observes. -/
abbrev WriteOracle : Type := Nat → Bool

/-- `GraphvizVisitor::pre_visit` (plan_visitor.rs lines 208-242): generate a
fresh id (the counter advances even if a later write fails), `writeln!` the
node line (`?`: on failure return the formatter error — nothing is pushed),
then if the stack has a top parent `writeln!` the edge line (`?` again), and
only then push the id on `parent_ids` and return `Ok(true)`.  Mutations made
before a failing write persist in the returned state. -/
def preVisit (oracle : WriteOracle) (s : GvState) : GvState × Except FmtError Bool :=
  let (id, s1) := s.nextId
  if oracle s1.writes then
    let s2 : GvState := { s1 with writes := s1.writes + 1 }
    match s2.parentIds with
    | [] => ({ s2 with parentIds := id :: s2.parentIds }, .ok true)
    | _ :: _ =>
      if oracle s2.writes then
        let s3 : GvState := { s2 with writes := s2.writes + 1 }
        ({ s3 with parentIds := id :: s3.parentIds }, .ok true)
      else
        (s2, .error .fmtError)
  else
    (s1, .error .fmtError)

/-- `GraphvizVisitor::post_visit` (plan_visitor.rs lines 244-248):
`self.parent_ids.pop().unwrap()` — pop one id, panicking (modelled as `none`)
when the stack is empty, then return `Ok(true)`; no formatter writes. -/
def postVisit (s : GvState) : Option (GvState × Bool) :=
  match s.parentIds with
  | [] => none
  | _ :: rest => some ({ s with parentIds := rest }, true)

/-- A step of a visitor traversal: one `pre_visit` or one `post_visit` call. -/
inductive VOp where
  | pre
  | post
deriving DecidableEq, Repr

/-- Outcome of driving the visitor through a call sequence: it completes, a
`pre_visit` formatter write fails (error returned to the caller, traversal
stops), or a `post_visit` on an empty stack panics. -/
inductive RunOutcome where
  | ok (s : GvState)
  | fmtFailed
  | panicked
deriving DecidableEq, Repr

/-- Run a sequence of visitor calls against a formatter behaviour. -/
def runVisits (oracle : WriteOracle) : List VOp → GvState → RunOutcome
  | [], s => .ok s
  | .pre :: ops, s =>
    match preVisit oracle s with
    | (_, .error _) => .fmtFailed
    | (s1, .ok _) => runVisits oracle ops s1
  | .post :: ops, s =>
    match postVisit s with
    | none => .panicked
    | some (s1, _) => runVisits oracle ops s1

/-- Number of `pre_visit` calls in a traversal fragment. -/
def countPre : List VOp → Nat
  | [] => 0
  | .pre :: ops => countPre ops + 1
  | .post :: ops => countPre ops

/-- Number of `post_visit` calls in a traversal fragment. -/
def countPost : List VOp → Nat
  | [] => 0
  | .pre :: ops => countPost ops
  | .post :: ops => countPost ops + 1

/-! ## Theorems -/

/-- C1: for every date/timestamp/interval column operation routed through
physical dispatch (subtract, add_to, multiply, divide, remainder), the
operand is first cast to its physical type and the operation executed
there; if the result's type equals the physical type exactly, the result is
cast back to the operand's original logical type, and if the result's type
differs from the physical type, the result is returned unchanged with no
restoring cast. -/
theorem try_physical_dispatch_cast_restore
    (cast : CastFn) (method : Series → Except ErrorCode Series)
    (s s1 r : Series) (p : DataType)
    (hp : physicalType s.dataType = some p)
    (hc : cast s p = .ok s1)
    (hm : method s1 = .ok r) :
    tryPhysicalDispatch cast method s =
      (if r.dataType = p then liftExcept (cast r s.dataType) else .ok r)
    ∧ (∀ (arrOp : Series → Series → Except ErrorCode Series) (rhs : Series),
        Series.subtract cast arrOp s rhs
          = tryPhysicalDispatch cast (fun x => arrOp x rhs) s
        ∧ Series.addTo cast arrOp s rhs
          = tryPhysicalDispatch cast (fun x => arrOp x rhs) s
        ∧ Series.multiply cast arrOp s rhs
          = tryPhysicalDispatch cast (fun x => arrOp x rhs) s
        ∧ Series.divide cast arrOp s rhs
          = tryPhysicalDispatch cast (fun x => arrOp x rhs) s
        ∧ Series.remainder cast arrOp s rhs
          = tryPhysicalDispatch cast (fun x => arrOp x rhs) s) := by
  constructor
  · simp only [tryPhysicalDispatch, hp, hc, hm]
  · intro arrOp rhs
    exact ⟨rfl, rfl, rfl, rfl, rfl⟩

/-- Witness for C1 at a concrete Date32 column, a reinterpreting cast and an
identity operation: the operation runs on the Int32 representation and the
result, still Int32-typed, is cast back to Date32. -/
theorem try_physical_dispatch_cast_restore_witness :
    tryPhysicalDispatch (fun s2 dt => Except.ok ⟨dt, s2.values⟩)
      (fun s2 => Except.ok s2) ⟨.date32, [some 5]⟩
      = .ok ⟨.date32, [some 5]⟩ := by
  have h := (try_physical_dispatch_cast_restore
    (fun s2 dt => Except.ok ⟨dt, s2.values⟩) (fun s2 => Except.ok s2)
    ⟨.date32, [some 5]⟩ ⟨.int32, [some 5]⟩ ⟨.int32, [some 5]⟩ .int32
    rfl rfl rfl).1
  simpa using h

/-- Counterexample for C2: when the step-1 cast to the physical type fails,
every dispatch path panics (`.unwrap()` on the cast `Result`) instead of
returning the typed error, on the concrete input of a Date32 column and a
cast that fails with `UnsupportedCast`. -/
theorem dispatch_cast_failure_panics_counterexample :
    tryPhysicalDispatch (fun _ _ => Except.error .unsupportedCast)
      (fun s2 => Except.ok s2) ⟨.date32, []⟩ = .panicked
    ∧ physicalDispatch (fun _ _ => Except.error .unsupportedCast)
        id ⟨.date32, []⟩ = .panicked
    ∧ castAndApply (fun _ _ => Except.error .unsupportedCast)
        id ⟨.date32, []⟩ = .panicked :=
  ⟨rfl, rfl, rfl⟩

/-- C2 amended: only the restoring cast of `try_physical_dispatch!` (step 3)
propagates its failure as a typed error; a failure of the step-1 cast to the
physical type panics in every dispatch path (`.unwrap()`), and in
`physical_dispatch!` a failing restoring cast panics as well. -/
theorem dispatch_cast_failure_behaviour
    (cast : CastFn) (method : Series → Except ErrorCode Series)
    (g : Series → Series) (s s1 r : Series) (p : DataType) (e : ErrorCode)
    (hp : physicalType s.dataType = some p) :
    (cast s p = .error e →
      tryPhysicalDispatch cast method s = .panicked
      ∧ physicalDispatch cast g s = .panicked
      ∧ castAndApply cast g s = .panicked)
    ∧ (cast s p = .ok s1 → method s1 = .ok r → r.dataType = p →
        cast r s.dataType = .error e →
        tryPhysicalDispatch cast method s = .err e)
    ∧ (cast s p = .ok s1 → g s1 = r → r.dataType = p →
        cast r s.dataType = .error e →
        physicalDispatch cast g s = .panicked) := by
  refine ⟨fun hfail => ?_, fun hc hm hr hrest => ?_, fun hc hg hr hrest => ?_⟩
  · exact ⟨by simp only [tryPhysicalDispatch, hp, hfail],
      by simp only [physicalDispatch, hp, hfail],
      by simp only [castAndApply, hp, hfail]⟩
  · simp only [tryPhysicalDispatch, hp, hc, hm, hr, if_pos, hrest, liftExcept]
  · simp only [physicalDispatch, hp, hc, hg, hr, if_pos, hrest]

/-- Witness for the amended C2: a concrete failing step-1 cast panics, and a
concrete cast succeeding towards Int32 but failing back towards Date32 makes
`try_physical_dispatch!` return the typed restore error. -/
theorem dispatch_cast_failure_behaviour_witness :
    tryPhysicalDispatch (fun _ _ => Except.error .unsupportedCast)
      (fun s2 => Except.ok s2) ⟨.date32, [some 1]⟩ = .panicked
    ∧ tryPhysicalDispatch
        (fun s2 dt =>
          if dt = .date32 then Except.error .unsupportedCast
          else Except.ok ⟨dt, s2.values⟩)
        (fun s2 => Except.ok s2) ⟨.date32, [some 1]⟩
      = .err .unsupportedCast := by
  constructor
  · exact (dispatch_cast_failure_behaviour
      (fun _ _ => Except.error .unsupportedCast) (fun s2 => Except.ok s2)
      id ⟨.date32, [some 1]⟩ ⟨.date32, [some 1]⟩ ⟨.date32, [some 1]⟩
      .int32 .unsupportedCast rfl).1 rfl |>.1
  · exact (dispatch_cast_failure_behaviour
      (fun s2 dt =>
        if dt = .date32 then Except.error .unsupportedCast
        else Except.ok ⟨dt, s2.values⟩)
      (fun s2 => Except.ok s2) id ⟨.date32, [some 1]⟩ ⟨.int32, [some 1]⟩
      ⟨.int32, [some 1]⟩ .int32 .unsupportedCast rfl).2.1 rfl rfl rfl rfl

/-- C3: the physical-type mapping sends Date32 and Interval(YearMonth) to
Int32; Date64, Timestamp (any unit, any timezone) and Interval(DayTime) to
Int64; and on every already-physical type it fails fast (the modelled panic,
`none`) — in particular it never silently returns the type itself. -/
theorem physical_type_mapping :
    (physicalType .date32 = some .int32
      ∧ physicalType (.interval .yearMonth) = some .int32
      ∧ physicalType .date64 = some .int64
      ∧ (∀ (unit : TimeUnit) (tz : Option String),
          physicalType (.timestamp unit tz) = some .int64)
      ∧ physicalType (.interval .dayTime) = some .int64)
    ∧ (physicalType .int32 = none
      ∧ physicalType .int64 = none
      ∧ physicalType .float32 = none
      ∧ physicalType .float64 = none
      ∧ physicalType .boolean = none
      ∧ physicalType .binary = none)
    ∧ (∀ dt : DataType, physicalType dt ≠ some dt) := by
  refine ⟨⟨rfl, rfl, rfl, fun _ _ => rfl, rfl⟩,
    ⟨rfl, rfl, rfl, rfl, rfl, rfl⟩, ?_⟩
  intro dt h
  cases dt with
  | interval u => cases u <;> simp [physicalType] at h
  | _ => simp [physicalType] at h

/-- Witness for C3: the mapping at Date32 together with the fail-fast
behaviour at the already-physical Int32. -/
theorem physical_type_mapping_witness :
    physicalType .date32 = some .int32
    ∧ ¬ physicalType .int32 = some .int32 :=
  ⟨physical_type_mapping.1.1, physical_type_mapping.2.2 .int32⟩

/-- A kernel that is reflexive on every value occurring in a fully-valid
column makes the rowwise equality evaluation all-true on the diagonal. -/
lemma eqVectorVector_self_all {α : Type} (kernel : α → α → Bool) :
    ∀ a : List (Option α), (∀ x ∈ a, x.isSome = true) →
      (∀ v, some v ∈ a → kernel v v = true) →
      (eqVectorVector kernel a a).all (fun r => r == some true) = true := by
  intro a
  induction a with
  | nil => intro _ _; rfl
  | cons x xs ih =>
    intro h hk
    have hx := h x (List.mem_cons_self x xs)
    match x, hx with
    | some u, _ =>
      have hrest : (∀ y ∈ xs, y.isSome = true) :=
        fun y hy => h y (List.mem_cons_of_mem _ hy)
      have hkrest : (∀ v, some v ∈ xs → kernel v v = true) :=
        fun v hv => hk v (List.mem_cons_of_mem _ hv)
      have hu : kernel u u = true := hk u (List.mem_cons_self _ _)
      simp only [eqVectorVector, List.zipWith_cons_cons, List.all_cons] at ih ⊢
      rw [ih hrest hkrest, hu]
      rfl

/-- Counterexample for C4: a single-row float column holding NaN has no null
rows, yet eq(a,a) is false at that row both on the scalar-promotion path and
on the SIMD path, because IEEE equality is not reflexive at NaN. -/
theorem eq_self_nan_counterexample :
    ([some PrimValue.nan] : List (Option PrimValue)).all Option.isSome = true
    ∧ (eqVectorVector (evalPrimitive ieeeEq (fun v => v))
        [some PrimValue.nan] [some PrimValue.nan]).all
          (fun r => r == some true) = false
    ∧ (eqVectorVector evalSimdEq [some PrimValue.nan] [some PrimValue.nan]).all
        (fun r => r == some true) = false :=
  ⟨rfl, rfl, rfl⟩

/-- C4 amended: for every column with no null rows and no float NaN among
its values, equality of the column with itself is true at every row — on the
scalar-promotion kernel for any promotion conversion (promotion never turns
a non-NaN value into NaN), on the SIMD equality kernel, and on the raw-byte
kernel; a NaN row instead yields false, IEEE equality not being reflexive at
NaN. -/
theorem eq_self_all_true_amended (conv : PrimValue → PrimValue)
    (hconv : ∀ v, v ≠ PrimValue.nan → conv v ≠ PrimValue.nan)
    (a : List (Option PrimValue)) (b : List (Option (List Nat)))
    (ha : ∀ x ∈ a, x.isSome = true)
    (han : ∀ x ∈ a, x ≠ some PrimValue.nan)
    (hb : ∀ x ∈ b, x.isSome = true) :
    (eqVectorVector (evalPrimitive ieeeEq conv) a a).all
      (fun r => r == some true) = true
    ∧ (eqVectorVector evalSimdEq a a).all (fun r => r == some true) = true
    ∧ (eqVectorVector evalBinary b b).all (fun r => r == some true) = true := by
  refine ⟨?_, ?_, ?_⟩
  · refine eqVectorVector_self_all _ a ha ?_
    intro v hv
    have h1 : v ≠ PrimValue.nan := by
      intro he
      exact han (some v) hv (by rw [he])
    have h2 := hconv v h1
    cases hcv : conv v with
    | num q => simp [evalPrimitive, hcv, ieeeEq]
    | nan => exact absurd hcv h2
  · refine eqVectorVector_self_all _ a ha ?_
    intro v hv
    have h1 : v ≠ PrimValue.nan := by
      intro he
      exact han (some v) hv (by rw [he])
    cases v with
    | num q => simp [evalSimdEq, ieeeEq]
    | nan => exact absurd rfl h1
  · refine eqVectorVector_self_all _ b hb ?_
    intro v _
    simp [evalBinary]

/-- Witness for the amended C4 at concrete NaN-free numeric and byte
columns, with the identity promotion conversion. -/
theorem eq_self_all_true_amended_witness :
    (eqVectorVector (evalPrimitive ieeeEq (fun v => v))
      [some (PrimValue.num 1), some (PrimValue.num 2)]
      [some (PrimValue.num 1), some (PrimValue.num 2)]).all
        (fun r => r == some true) = true
    ∧ (eqVectorVector evalSimdEq
        [some (PrimValue.num 1), some (PrimValue.num 2)]
        [some (PrimValue.num 1), some (PrimValue.num 2)]).all
          (fun r => r == some true) = true
    ∧ (eqVectorVector evalBinary [some [0, 7]] [some [0, 7]]).all
        (fun r => r == some true) = true :=
  eq_self_all_true_amended (fun v => v) (fun _ h => h)
    [some (PrimValue.num 1), some (PrimValue.num 2)] [some [0, 7]]
    (by decide) (by decide) (by decide)

/-- C5: Boolean equality is evaluated by the dedicated Boolean entry points:
the vector/vector result at each row is NOT(a XOR b); eq with the constant
true returns the column itself; eq with the constant false returns the
rowwise negation; the const/vector entry point is the vector/const entry
point with operands swapped. -/
theorem boolean_eq_special_case (a b col : BooleanColumn) (l : Bool) (i : Nat)
    (h1 : i < a.length) (h2 : i < b.length) :
    (BooleanSimdEq.vectorVector a b)[i]? = some (!(a[i] ^^ b[i]))
    ∧ BooleanSimdEq.vectorConst col true = col
    ∧ BooleanSimdEq.vectorConst col false = col.map (fun x => !x)
    ∧ BooleanSimdEq.constVector l col = BooleanSimdEq.vectorConst col l := by
  refine ⟨?_, rfl, rfl, rfl⟩
  simp [BooleanSimdEq.vectorVector, compareOp, List.getElem?_zipWith,
    List.getElem?_eq_getElem, h1, h2]

/-- Witness for C5 at row 1 of two concrete Boolean columns. -/
theorem boolean_eq_special_case_witness :
    (BooleanSimdEq.vectorVector [true, false] [true, true])[1]?
      = some (!([true, false][1] ^^ [true, true][1]))
    ∧ BooleanSimdEq.vectorConst [true, false] true = [true, false]
    ∧ BooleanSimdEq.vectorConst [true, false] false
        = List.map (fun x => !x) [true, false]
    ∧ BooleanSimdEq.constVector false [true, false]
        = BooleanSimdEq.vectorConst [true, false] false :=
  boolean_eq_special_case [true, false] [true, true] [true, false] false 1
    (by decide) (by decide)

/-- Dropping then indexing a list reads the shifted index. -/
lemma getElem?_drop_add {α : Type} (l : List α) (n k : Nat) :
    (l.drop n)[k]? = l[n + k]? := by
  induction n generalizing l with
  | zero => simp
  | succ m ih =>
    cases l with
    | nil => simp
    | cons x t =>
      rw [List.drop_succ_cons, ih t, Nat.add_right_comm m 1 k,
        List.getElem?_cons_succ]

/-- C6: slicing is a view that preserves element values and their order —
for every valid offset/length and every k below the slice length, reading
row k of the slice equals reading row offset+k of the source column. -/
theorem slice_try_get_consistent (s : Series) (offset length k : Nat)
    (_hol : offset + length ≤ s.len) (hk : k < length) :
    (s.slice offset length).tryGet k = s.tryGet (offset + k) := by
  unfold Series.tryGet Series.slice
  rw [List.getElem?_take_of_lt hk, getElem?_drop_add]

/-- Witness for C6: a slice of a concrete five-row Date32 column. -/
theorem slice_try_get_consistent_witness :
    ((Series.mk .date32 [some 0, some 1, some 2, some 3, some 4]).slice 1 3).tryGet 2
      = (Series.mk .date32 [some 0, some 1, some 2, some 3, some 4]).tryGet (1 + 2) :=
  slice_try_get_consistent ⟨.date32, [some 0, some 1, some 2, some 3, some 4]⟩
    1 3 2 (by decide) (by decide)

/-- C7: creating the same database twice on the local engine fails the second
time when `if_not_exists` is false, and succeeds both times when
`if_not_exists` is true, the second call leaving the catalog unchanged. -/
theorem create_database_idempotent
    (backend : CreateDatabasePlan → Except ErrorCode Unit)
    (st : CatalogKeys) (name : String) :
    (∃ e, (createDatabase backend
        (createDatabase backend st ⟨name, .localEngine, false⟩).2
        ⟨name, .localEngine, false⟩).1 = .error e)
    ∧ ((createDatabase backend st ⟨name, .localEngine, true⟩).1 = .ok ()
      ∧ (createDatabase backend
          (createDatabase backend st ⟨name, .localEngine, true⟩).2
          ⟨name, .localEngine, true⟩).1 = .ok ()
      ∧ (createDatabase backend
          (createDatabase backend st ⟨name, .localEngine, true⟩).2
          ⟨name, .localEngine, true⟩).2
        = (createDatabase backend st ⟨name, .localEngine, true⟩).2) := by
  by_cases h : name ∈ st <;>
    refine ⟨⟨.unknownDatabase, ?_⟩, ?_, ?_, ?_⟩ <;>
    simp [createDatabase, h, List.mem_cons]

/-- Every character produced by the lowercase mapping is non-uppercase. -/
lemma ofNat_add32_not_upper (n : Nat) (h1 : 65 ≤ n) (h2 : n ≤ 90) :
    (Char.ofNat (n + 32)).isUpper = false := by
  interval_cases n <;> decide

/-- `Char.toLower` never returns an ASCII uppercase letter. -/
lemma toLower_isUpper_eq_false (c : Char) : (Char.toLower c).isUpper = false := by
  rw [Char.toLower]
  by_cases h : c.toNat ≥ 65 ∧ c.toNat ≤ 90
  · rw [if_pos h]
    exact ofNat_add32_not_upper _ h.1 h.2
  · rw [if_neg h]
    by_contra hne
    rw [Bool.not_eq_false, Char.isUpper, Bool.and_eq_true] at hne
    obtain ⟨hl, hr⟩ := hne
    simp only [decide_eq_true_eq] at hl hr
    apply h
    simp only [ge_iff_le, UInt32.le_def, BitVec.le_def] at hl hr
    exact ⟨hl, hr⟩

/-- A lowercased name contains no ASCII uppercase letter. -/
lemma hasUpper_toLowercase (s : String) : hasUpper (toLowercase s) = false := by
  simp only [hasUpper, toLowercase, List.any_map, List.any_eq_false, Function.comp]
  intro x _
  simp [toLower_isUpper_eq_false x]

/-- A name containing an ASCII uppercase letter is not a lowercased name. -/
lemma ne_toLowercase_of_hasUpper {name m : String} (h : hasUpper name = true) :
    name ≠ toLowercase m := by
  intro he
  have h2 := hasUpper_toLowercase m
  rw [← he, h] at h2
  exact Bool.noConfusion h2

/-- `register_database` stores exactly the lowercased names. -/
lemma registerDatabase_eq (names : List String) (acc : CatalogKeys) :
    registerDatabase acc names = (names.map toLowercase).reverse ++ acc := by
  induction names generalizing acc with
  | nil => simp [registerDatabase]
  | cons n ns ih =>
    show registerDatabase (toLowercase n :: acc) ns = _
    rw [ih]
    simp

/-- C8: `register_database` stores every database under the lowercase form of
its name while `get_database` looks the name up as given, so with no remote
store configured a database registered under a name containing an uppercase
letter is unreachable under its original name (UnknownDatabase) but
reachable under the lowercased name. -/
theorem register_get_database_case_mismatch
    (backend : String → Except ErrorCode Unit) (names : List String)
    (name : String) (hmem : name ∈ names) (hup : hasUpper name = true) :
    getDatabase "" backend (registerDatabase [] names) name
      = .error .unknownDatabase
    ∧ getDatabase "" backend (registerDatabase [] names) (toLowercase name)
      = .ok () := by
  rw [registerDatabase_eq]
  constructor
  · rw [getDatabase, if_neg, if_neg]
    · intro hc
      exact hc rfl
    · simp only [List.append_nil, List.mem_reverse, List.mem_map]
      rintro ⟨m, _, he⟩
      exact ne_toLowercase_of_hasUpper hup he.symm
  · rw [getDatabase, if_pos]
    simp only [List.append_nil, List.mem_reverse, List.mem_map]
    exact ⟨name, hmem, rfl⟩

/-- Witness for C8: the database "Db" is only reachable as "db". -/
theorem register_get_database_case_mismatch_witness :
    getDatabase "" (fun _ => .error .unknownDatabase)
      (registerDatabase [] ["Db"]) "Db" = .error .unknownDatabase
    ∧ getDatabase "" (fun _ => .error .unknownDatabase)
      (registerDatabase [] ["Db"]) (toLowercase "Db") = .ok () :=
  register_get_database_case_mismatch (fun _ => .error .unknownDatabase)
    ["Db"] "Db" (by simp) (by decide)

/-- C9: `get_databases` returns the local names, plus the remote names when a
store address is configured, sorted in ascending lexicographic order. -/
theorem get_databases_sorted (storeAddress : String) (backendDbs : List String)
    (st : CatalogKeys) :
    (getDatabases storeAddress backendDbs st).Sorted (· ≤ ·)
    ∧ List.Perm (getDatabases storeAddress backendDbs st)
        (st ++ (if storeAddress ≠ "" then backendDbs else [])) := by
  constructor
  · exact List.sorted_mergeSort' _
  · exact List.mergeSort_perm _ _

/-- When both candidate writes of a `pre_visit` call succeed, the call pushes
exactly the freshly generated id `id_gen + 1` and returns `Ok(true)`, having
issued one write when the stack was empty and two otherwise. -/
lemma preVisit_ok (oracle : WriteOracle) (s : GvState)
    (h1 : oracle s.writes = true) (h2 : oracle (s.writes + 1) = true) :
    preVisit oracle s
      = ({ idGen := s.idGen + 1,
           parentIds := (s.idGen + 1) :: s.parentIds,
           writes := s.writes + (if s.parentIds = [] then 1 else 2) },
         .ok true) := by
  cases hm : s.parentIds with
  | nil => simp [preVisit, GvState.nextId, h1, hm]
  | cons x rest => simp [preVisit, GvState.nextId, h1, h2, hm]

/-- Against a formatter whose writes all succeed, running a traversal
fragment never fails and moves the stack length by the difference of pre and
post counts, provided no prefix pops more than has been pushed on top of the
initial stack. -/
lemma runVisits_total (oracle : WriteOracle) (hsucc : ∀ n, oracle n = true)
    (ops : List VOp) :
    ∀ s : GvState,
      (∀ n, n ≤ ops.length →
        countPost (List.take n ops)
          ≤ countPre (List.take n ops) + s.parentIds.length) →
      ∃ s2, runVisits oracle ops s = .ok s2
        ∧ s2.parentIds.length + countPost ops
            = s.parentIds.length + countPre ops
        ∧ s2.idGen = s.idGen + countPre ops := by
  induction ops with
  | nil =>
    intro s _
    exact ⟨s, rfl, by simp [countPost, countPre], by simp [countPre]⟩
  | cons op rest ih =>
    intro s h
    cases op with
    | pre =>
      have hpre := preVisit_ok oracle s (hsucc _) (hsucc _)
      have hrest : ∀ n, n ≤ rest.length →
          countPost (List.take n rest)
            ≤ countPre (List.take n rest)
              + ((s.idGen + 1) :: s.parentIds).length := by
        intro n hn
        have h2 := h (n + 1) (by simpa using Nat.succ_le_succ hn)
        simp only [List.take_succ_cons, countPost, countPre,
          List.length_cons] at h2 ⊢
        omega
      obtain ⟨s2, hrun, hlen, hid⟩ := ih
        { idGen := s.idGen + 1,
          parentIds := (s.idGen + 1) :: s.parentIds,
          writes := s.writes + (if s.parentIds = [] then 1 else 2) } hrest
      refine ⟨s2, ?_, ?_, ?_⟩
      · simp only [runVisits, hpre]
        exact hrun
      · simp only [List.length_cons] at hlen
        simp only [countPost, countPre]
        omega
      · simp only at hid
        simp only [countPre]
        omega
    | post =>
      cases hm : s.parentIds with
      | nil =>
        exfalso
        have h1 := h 1 (by simp)
        simp [countPost, countPre, hm] at h1
      | cons x tail =>
        have hpost : postVisit s = some ({ s with parentIds := tail }, true) := by
          simp [postVisit, hm]
        have hlen1 : s.parentIds.length = tail.length + 1 := by
          rw [hm]; rfl
        have htl : ({ s with parentIds := tail } : GvState).parentIds.length
            = tail.length := rfl
        have hrest : ∀ n, n ≤ rest.length →
            countPost (List.take n rest)
              ≤ countPre (List.take n rest)
                + ({ s with parentIds := tail } : GvState).parentIds.length := by
          intro n hn
          have h2 := h (n + 1) (by simpa using Nat.succ_le_succ hn)
          simp only [List.take_succ_cons, countPost, countPre] at h2
          rw [htl]
          omega
        obtain ⟨s2, hrun, hlen, hid⟩ := ih { s with parentIds := tail } hrest
        refine ⟨s2, ?_, ?_, ?_⟩
        · simp only [runVisits, hpost]
          exact hrun
        · rw [htl] at hlen
          simp only [countPost, countPre, List.length_cons]
          omega
        · simpa [countPre] using hid

/-- Counterexample for C10: with a formatter whose first write fails, a
`pre_visit` call returns the formatter error and pushes nothing (the id
counter having already been consumed), so not every `pre_visit` call pushes
an id and returns true. -/
theorem graphviz_pre_visit_write_failure_counterexample :
    preVisit (fun _ => false) ⟨0, [], 0⟩ = (⟨1, [], 0⟩, .error .fmtError) :=
  rfl

/-- C10 amended: a `pre_visit` call whose formatter writes succeed pushes
exactly one freshly generated id onto `parent_ids` and returns true (a
failing write instead returns the formatter error before pushing); every
`post_visit` pops exactly one id, panicking only on an empty stack; under a
formatter whose writes all succeed, a traversal in which each `post_visit`
is preceded by a matching unmatched `pre_visit` never fails, and when the
sequence is balanced the `parent_ids` stack regains its initial length. -/
theorem graphviz_visitor_stack_discipline_amended :
    (∀ (oracle : WriteOracle) (s : GvState),
      oracle s.writes = true → oracle (s.writes + 1) = true →
      preVisit oracle s
        = ({ idGen := s.idGen + 1,
             parentIds := (s.idGen + 1) :: s.parentIds,
             writes := s.writes + (if s.parentIds = [] then 1 else 2) },
           .ok true))
    ∧ (∀ (s : GvState) (x : Nat) (rest : List Nat), s.parentIds = x :: rest →
        postVisit s = some ({ s with parentIds := rest }, true))
    ∧ (∀ oracle : WriteOracle, (∀ n, oracle n = true) →
        ∀ (ops : List VOp) (s : GvState),
        (∀ n, n ≤ ops.length →
          countPost (List.take n ops)
            ≤ countPre (List.take n ops) + s.parentIds.length) →
        ∃ s2, runVisits oracle ops s = .ok s2
          ∧ s2.parentIds.length + countPost ops
              = s.parentIds.length + countPre ops
          ∧ (countPost ops = countPre ops →
              s2.parentIds.length = s.parentIds.length)) := by
  refine ⟨preVisit_ok, fun s x rest hx => by simp [postVisit, hx],
    fun oracle hsucc ops s h => ?_⟩
  obtain ⟨s2, hrun, hlen, _⟩ := runVisits_total oracle hsucc ops s h
  exact ⟨s2, hrun, hlen, fun hbal => by omega⟩

/-- Witness for the amended C10: under an always-succeeding formatter, a
concrete `pre_visit` pushes the fresh id 1, and the balanced traversal
pre,pre,post,post from the fresh visitor state runs to completion and
restores the empty stack. -/
theorem graphviz_visitor_stack_discipline_amended_witness :
    preVisit (fun _ => true) ⟨0, [], 0⟩
      = ({ idGen := 1, parentIds := [1], writes := 1 }, .ok true)
    ∧ ∃ s2, runVisits (fun _ => true) [.pre, .pre, .post, .post] ⟨0, [], 0⟩
          = .ok s2
        ∧ s2.parentIds.length + countPost [.pre, .pre, .post, .post]
            = (GvState.mk 0 [] 0).parentIds.length
              + countPre [.pre, .pre, .post, .post]
        ∧ (countPost [.pre, .pre, .post, .post]
              = countPre [.pre, .pre, .post, .post] →
            s2.parentIds.length = (GvState.mk 0 [] 0).parentIds.length) := by
  constructor
  · exact graphviz_visitor_stack_discipline_amended.1
      (fun _ => true) ⟨0, [], 0⟩ rfl rfl
  · exact graphviz_visitor_stack_discipline_amended.2.2
      (fun _ => true) (fun _ => rfl) [.pre, .pre, .post, .post] ⟨0, [], 0⟩
      (by decide)

end Databend
